import Mathlib

/-!
# s3tools: path parsing and transfer dispatch

A shallow embedding of `lib/s3tools.go`, `cmd/s3cp/s3cp.go`, `cmd/s3rm/s3rm.go`
and `logger/s3logger.go`.

Go strings are modelled by Lean strings and matched character by character.
The only characters the path pattern distinguishes are `:` and the line feed,
both ASCII, so rune-level matching of a UTF-8 string and character-level
matching of the corresponding Lean string coincide. Go strings that are not
valid UTF-8 have no counterpart here.

A run of a command is modelled by the list of its observable actions and by the
way the process ends; the operating system and the storage client are a
parameter (`World`) that answers each call.
-/

set_option autoImplicit false

/-! ## The fragment of Go's `regexp` package used by `s3pathre` -/

namespace regexp

/-- Single-rune matchers occurring in the path pattern. -/
inductive CharClass where
  /-- A literal rune. -/
  | lit (c : Char)
  /-- The negated class `[^c]`; under the default (Perl) flags a negated class
  also matches the line feed. -/
  | notLit (c : Char)
  /-- The dot without the `s` flag: any rune except the line feed. -/
  | anyNotNL
  deriving DecidableEq, Repr

/-- Does rune `r` belong to the class? -/
def CharClass.matches : CharClass → Char → Bool
  | .lit c, r => r == c
  | .notLit c, r => r != c
  | .anyNotNL, r => r != '\n'

/-- Syntax trees of the operators that the path pattern is built from. -/
inductive Regexp where
  /-- `^` without the `m` flag: beginning of the text. -/
  | beginText
  /-- `$` without the `m` flag: end of the text. -/
  | endText
  /-- One rune of a class. -/
  | rune (k : CharClass)
  /-- Greedy `x+` over a one-rune class `x`. -/
  | plus (k : CharClass)
  /-- Capturing group number `n`. -/
  | capture (n : Nat) (sub : Regexp)
  /-- Concatenation. -/
  | concat (r₁ r₂ : Regexp)
  deriving DecidableEq, Repr

/-- Capture registers: register `2*n` holds the start and `2*n+1` the end of
group `n`; an unset register is `none` (Go stores `-1`). -/
abbrev Caps := List (Option Nat)

/-- Continuation of a backtracking thread: position, remaining input and
capture registers. -/
abbrev Cont := Nat → List Char → Caps → Option Caps

/-- Greedy loop of `x+`: consume one rune of the class, then prefer looping
over leaving the loop (leftmost-first semantics). -/
def stepPlus (k : CharClass) (next : Cont) : Cont
  | _, [], _ => none
  | pos, r :: rest, cap =>
    if k.matches r then
      match stepPlus k next (pos + 1) rest cap with
      | some m => some m
      | none => next (pos + 1) rest cap
    else none

/-- Backtracking execution of a pattern from a given position, calling `next`
on what is left once the pattern has matched. -/
def Regexp.run : Regexp → Cont → Cont
  | .beginText, next, pos, rest, cap =>
    if pos = 0 then next pos rest cap else none
  | .endText, next, pos, rest, cap =>
    match rest with
    | [] => next pos [] cap
    | _ :: _ => none
  | .rune k, next, pos, rest, cap =>
    match rest with
    | [] => none
    | r :: rest1 => if k.matches r then next (pos + 1) rest1 cap else none
  | .plus k, next, pos, rest, cap => stepPlus k next pos rest cap
  | .capture n sub, next, pos, rest, cap =>
    sub.run (fun p r c => next p r (c.set (2 * n + 1) (some p))) pos rest
      (cap.set (2 * n) (some pos))
  | .concat r₁ r₂, next, pos, rest, cap => r₁.run (r₂.run next) pos rest cap

/-- Number of parenthesised groups (`NumSubexp`). -/
def Regexp.numSubexp : Regexp → Nat
  | .capture n sub => max n sub.numSubexp
  | .concat r₁ r₂ => max r₁.numSubexp r₂.numSubexp
  | _ => 0

/-- One match attempt starting at `pos`; group 0 is the whole match. -/
def Regexp.attempt (re : Regexp) (pos : Nat) (rest : List Char) : Option Caps :=
  re.run (fun p _ c => some (c.set 1 (some p))) pos rest
    ((List.replicate (2 * (re.numSubexp + 1)) none).set 0 (some pos))

/-- Unanchored search: the leftmost starting position that admits a match. -/
def Regexp.search (re : Regexp) : Nat → List Char → Option Caps
  | pos, [] => re.attempt pos []
  | pos, r :: rest =>
    match re.attempt pos (r :: rest) with
    | some m => some m
    | none => re.search (pos + 1) rest

/-- The capture registers of the leftmost-first match of `re` in `s`. -/
def Regexp.exec (re : Regexp) (s : List Char) : Option Caps :=
  re.search 0 s

/-- The Go slice expression `s[a:b]`. -/
def sliceStr (s : List Char) (a b : Nat) : List Char :=
  (s.drop a).take (b - a)

/-- Text of group `i` given the capture registers; an unset group is the empty
string. -/
def group (s : List Char) (cap : Caps) (i : Nat) : String :=
  match cap.getD (2 * i) none, cap.getD (2 * i + 1) none with
  | some a, some b => String.mk (sliceStr s a b)
  | _, _ => ""

/-- Whether the string contains any match of the pattern
(`regexp.MatchString` with an already compiled pattern). -/
def MatchString (re : Regexp) (s : String) : Bool :=
  (re.exec s.data).isSome

/-- The text of the leftmost match and of its groups; the nil slice (here the
empty list) when there is no match (`(*Regexp).FindStringSubmatch`). -/
def FindStringSubmatch (re : Regexp) (s : String) : List String :=
  match re.exec s.data with
  | none => []
  | some cap => (List.range (re.numSubexp + 1)).map (group s.data cap)

end regexp

/-! ## Go values shared by the packages -/

/-- Error values built with `fmt.Errorf`, named after their format strings, and
errors handed back by the operating system or the storage client (kept as
their text). -/
inductive Err where
  /-- "The path '%s' is invalid, must be in the form s3:bucket:/path/to/file". -/
  | pathInvalid (path : String)
  /-- "Source path invalid, error was: %s". -/
  | sourcePathInvalid (cause : Err)
  /-- "Destination path invalid, error was: %s". -/
  | destinationPathInvalid (cause : Err)
  /-- "Failed to open file '%s', error was: %s". -/
  | openFailed (file : String) (cause : Err)
  /-- "Internal Error: Failure creating NewDownloader @copyToS3()". -/
  | newDownloaderFailed
  /-- "Internal Error: Failure creating NewUploader @copyToS3()". -/
  | newUploaderFailed
  /-- "Failed to download source file '%s' to destination '%s'...". -/
  | downloadFailed (source destination : String) (cause : Err)
  /-- "Failed to upload source file '%s' to destination '%s'...". -/
  | uploadFailed (source destination : String) (cause : Err)
  /-- "Invalid cmdline arguments or help requested". -/
  | invalidCmdline
  /-- An error of the operating system or of the storage client. -/
  | external (msg : String)
  deriving DecidableEq, Repr

/-- How a Go call that returns `(value, error)` can end: with a value and a nil
error, with a nil value and an error, or in a run-time panic because an index
`index` was out of range for a slice of length `len`. -/
inductive Result (α : Type) where
  | ok (a : α)
  | error (e : Err)
  | indexOutOfRange (index len : Nat)
  deriving DecidableEq, Repr

/-- How a process ends: `os.Exit(code)`, or an unrecovered panic. -/
inductive Exit where
  | code (n : Nat)
  | panicked
  deriving DecidableEq, Repr

/-! ## The environment: calls into the operating system and the storage client -/

/-- Observable actions of a run, in program order. -/
inductive Event where
  /-- The call `flag.Usage()`. -/
  | usage
  /-- Text written to standard error. -/
  | stderr (text : String)
  /-- Text written to standard output. -/
  | stdout (text : String)
  /-- The assignment `aws.DefaultConfig.Region = region`. -/
  | setRegion (region : String)
  /-- The call `os.Create(file)`. -/
  | create (file : String)
  /-- The call `os.Open(file)`. -/
  | openFile (file : String)
  /-- The deferred `Close()` of an opened or created file. -/
  | close (file : String)
  /-- The call `downloader.Download(writer, &s3.GetObjectInput{Bucket, Key})`. -/
  | getObject (writer bucket key : String)
  /-- The call `uploader.Upload(&s3manager.UploadInput{Body, Bucket, Key,
  StorageClass})`; an unset storage class is `none`. -/
  | putObject (body bucket key : String) (storageClass : Option String)
  /-- The call `svc.DeleteObject(&s3.DeleteObjectInput{Bucket, Key})`. -/
  | deleteObject (bucket key : String)
  /-- The line `fmt.Printf("%s\n", err.Error())` of a command. -/
  | printError (err : Err)
  deriving DecidableEq, Repr

/-- Answers of the collaborators. Errors are kept as their text. -/
structure World where
  /-- The error of `os.Create`, if any. -/
  create : String → Option String
  /-- The error of `os.Open`, if any. -/
  openFile : String → Option String
  /-- Whether `s3manager.NewDownloader(nil)` is non-nil. -/
  newDownloader : Bool
  /-- Whether `s3manager.NewUploader(nil)` is non-nil. -/
  newUploader : Bool
  /-- Bytes written by `Download`, or its error. -/
  download : (writer bucket key : String) → Except String Nat
  /-- The `Location` reported by `Upload`, or its error. -/
  upload : (body bucket key : String) → Option String → Except String String
  /-- The printed form of the output of `DeleteObject`, or its error. -/
  deleteObject : (bucket key : String) → Except String String

/-- Is the event a call into the file system or the storage service? -/
def Event.isCall : Event → Bool
  | .create _ | .openFile _ | .close _ => true
  | .getObject _ _ _ | .putObject _ _ _ _ | .deleteObject _ _ => true
  | _ => false

/-- The file-system and storage-service calls of a trace, in order. -/
def calls (t : List Event) : List Event :=
  t.filter Event.isCall

/-! ## `logger/s3logger.go` -/

namespace logger

/-- The two package variables `IsDebugMode` and `IsQuietMode`. -/
structure Mode where
  IsDebugMode : Bool := false
  IsQuietMode : Bool := false
  deriving DecidableEq, Repr

/-- Log writes the string "s" to stdout if IsQuietMode is false, or if
IsDebugMode is true. Otherwise, it does nothing. -/
def Log (m : Mode) (s : String) : List Event :=
  if !m.IsQuietMode || m.IsDebugMode then [.stdout (s ++ "\n")] else []

/-- Debug writes the string "s" to stdout if IsDebugMode is true, otherwise it
does nothing. -/
def Debug (m : Mode) (s : String) : List Event :=
  if m.IsDebugMode then [.stdout ("DEBUG: " ++ s ++ "\n")] else []

end logger

/-! ## `lib/s3tools.go` -/

namespace lib

open regexp

/-- The pattern `"^s3:([^:]+):(.+)$"`, as parsed by `regexp.MustCompile`. -/
def s3pathre : Regexp :=
  .concat .beginText <|
  .concat (.rune (.lit 's')) <|
  .concat (.rune (.lit '3')) <|
  .concat (.rune (.lit ':')) <|
  .concat (.capture 1 (.plus (.notLit ':'))) <|
  .concat (.rune (.lit ':')) <|
  .concat (.capture 2 (.plus .anyNotNL)) <|
  .endText

/-- S3path is a struct representing the parts of the s3 path. -/
structure S3path where
  Bucket : String
  Path : String
  deriving DecidableEq, Repr

/-- IsS3Path returns true if the string s is a valid s3 path, false otherwise. -/
def IsS3Path (s : String) : Bool :=
  MatchString s3pathre s

/-- ParseS3Path returns a struct of type S3path from the string "path". The
two group accesses `parts[1]` and `parts[2]` are bounds-checked by the Go
run-time. `len` of a Go string is zero exactly for the empty string. -/
def ParseS3Path (path : String) : Result S3path :=
  let parts := FindStringSubmatch s3pathre path
  match parts[1]? with
  | none => .indexOutOfRange 1 parts.length
  | some bucket =>
    match parts[2]? with
    | none => .indexOutOfRange 2 parts.length
    | some key =>
      if bucket.length == 0 || key.length == 0 then
        .error (.pathInvalid path)
      else
        .ok { Bucket := bucket, Path := key }

/-- Download a file from an S3 location identified by "source", to a local file
identified by "destination". The deferred `writer.Close()` is registered only
after the downloader has been obtained. -/
def CopyFromS3 (w : World) (m : logger.Mode) (source destination : String) :
    List Event × Result Unit :=
  match ParseS3Path source with
  | .indexOutOfRange i n => ([], .indexOutOfRange i n)
  | .error err => ([], .error (.sourcePathInvalid err))
  | .ok src =>
    match w.create destination with
    | some err =>
      ([.create destination], .error (.openFailed destination (.external err)))
    | none =>
      if !w.newDownloader then
        ([.create destination], .error .newDownloaderFailed)
      else
        match w.download destination src.Bucket src.Path with
        | .error err =>
          ([.create destination, .getObject destination src.Bucket src.Path,
            .close destination],
           .error (.downloadFailed source destination (.external err)))
        | .ok bytesWritten =>
          ([.create destination, .getObject destination src.Bucket src.Path]
            ++ logger.Debug m ("Downloaded '" ++ source ++ "', "
                ++ toString bytesWritten ++ " bytes retrieved\n")
            ++ [.close destination],
           .ok ())

/-- Upload a file to an S3 location identified by "destination", from a local
file identified by "source". -/
def CopyToS3 (w : World) (m : logger.Mode) (source destination : String)
    (isReducedRedundancy : Bool) : List Event × Result Unit :=
  match ParseS3Path destination with
  | .indexOutOfRange i n => ([], .indexOutOfRange i n)
  | .error err => ([], .error (.destinationPathInvalid err))
  | .ok dest =>
    match w.openFile source with
    | some err =>
      ([.openFile source], .error (.openFailed source (.external err)))
    | none =>
      if !w.newUploader then
        ([.openFile source], .error .newUploaderFailed)
      else
        let storageClass : Option String :=
          if isReducedRedundancy then some "REDUCED_REDUNDANCY" else none
        match w.upload source dest.Bucket dest.Path storageClass with
        | .error err =>
          ([.openFile source, .putObject source dest.Bucket dest.Path storageClass,
            .close source],
           .error (.uploadFailed source destination (.external err)))
        | .ok location =>
          ([.openFile source, .putObject source dest.Bucket dest.Path storageClass]
            ++ logger.Debug m ("Post-upload file destination URL:='" ++ location ++ "'\n")
            ++ [.close source],
           .ok ())

/-- RemoveS3Path removes an object in an S3 location specified in "path". -/
def RemoveS3Path (w : World) (m : logger.Mode) (path : String) :
    List Event × Result Unit :=
  match ParseS3Path path with
  | .indexOutOfRange i n => ([], .indexOutOfRange i n)
  | .error err => ([], .error err)
  | .ok target =>
    match w.deleteObject target.Bucket target.Path with
    | .error err =>
      ([.deleteObject target.Bucket target.Path], .error (.external err))
    | .ok result =>
      ([.deleteObject target.Bucket target.Path]
        ++ logger.Debug m ("Removed item ''" ++ result ++ "'\n"),
       .ok ())

end lib

/-! ## What `flag.Parse` leaves behind -/

/-- The state after `flag.Parse()` has returned: the raw argument vector, the
flag variables and the positional arguments. -/
structure Cmdline where
  /-- The vector `os.Args`. -/
  osArgs : List String
  /-- The flag `--help`. -/
  isHelpRequested : Bool := false
  /-- The flag `--debug`. -/
  debug : Bool := false
  /-- The flag `--quiet`. -/
  quiet : Bool := false
  /-- The flag `--region`. -/
  region : String := "us-east-1"
  /-- The flag `--rr` (s3cp only). -/
  isReducedRedundancy : Bool := false
  /-- The positional arguments, `flag.Args()`. -/
  args : List String

/-- The logger variables as set by the flags. -/
def Cmdline.mode (c : Cmdline) : logger.Mode :=
  { IsDebugMode := c.debug, IsQuietMode := c.quiet }

/-- The verb `%s` applied to a slice of strings. -/
def fmtStrings (l : List String) : String :=
  "[" ++ " ".intercalate l ++ "]"

/-- The common end of both `main` functions (`s3cp.go` lines 124-130, `s3rm.go`
lines 79-85): print the error of the operation and exit with 1, or log the
completion message `done` and exit with 0. A panic of the operation ends the
process before either. -/
def finish (m : logger.Mode) (done : String) : Result Unit → List Event × Exit
  | .indexOutOfRange _ _ => ([], .panicked)
  | .error err => ([.printError err], .code 1)
  | .ok () => (logger.Log m done, .code 0)

/-! ## `cmd/s3cp/s3cp.go` -/

namespace s3cp

open lib

/-- Prints the help information. -/
def printHelp : List Event :=
  [ .usage,
    .stderr "  source:  The source of the copy, either a local file path or an s3 path like s3:bucket:/path\n",
    .stderr "  destination:  The destination of the copy, in the same format as source (above)\n",
    .stderr "\nBoth source and destination are required, and one must be an s3 path, another must be a local path\n\n" ]

/-- Parses the cmdline options. Returns an error if the cmdline is invalid or
if the user requested help. -/
def parseCmdline (c : Cmdline) : List Event × Result (String × String) :=
  let ev := logger.Debug c.mode ("got args '" ++ fmtStrings c.osArgs ++ "'\n")
  if c.args.length != 2 || c.isHelpRequested then
    (ev ++ logger.Debug c.mode ("NArg = " ++ toString c.args.length
            ++ ", ErrHelp = flag: help requested\n"),
     .error .invalidCmdline)
  else
    (ev, .ok (c.args.getD 0 "", c.args.getD 1 ""))

/-- The command `s3cp`. -/
def main (w : World) (c : Cmdline) : List Event × Exit :=
  match parseCmdline c with
  | (ev, .indexOutOfRange _ _) => (ev, .panicked)
  | (ev, .error _) => (ev ++ printHelp, .code 1)
  | (ev, .ok (source, destination)) =>
    let ev := ev ++ [.setRegion c.region]
    let done := source ++ " -> " ++ destination ++ " : transfer complete\n"
    if IsS3Path source then
      let r := CopyFromS3 w c.mode source destination
      let f := finish c.mode done r.2
      (ev ++ logger.Debug c.mode "Calling copyFromS3" ++ r.1 ++ f.1, f.2)
    else if IsS3Path destination then
      let r := CopyToS3 w c.mode source destination c.isReducedRedundancy
      let f := finish c.mode done r.2
      (ev ++ logger.Debug c.mode "Calling copyToS3" ++ r.1 ++ f.1, f.2)
    else
      (ev ++ printHelp, .code 1)

end s3cp

/-! ## `cmd/s3rm/s3rm.go` -/

namespace s3rm

open lib

/-- Prints the help information. -/
def printHelp : List Event :=
  [ .usage,
    .stderr "  path:  The S3 object do delete, like s3:bucket:/path\n" ]

/-- Parses the cmdline options. Returns an error if the cmdline is invalid or
if the user requested help. -/
def parseCmdline (c : Cmdline) : List Event × Result String :=
  let ev := logger.Debug c.mode ("got args '" ++ fmtStrings c.osArgs ++ "'\n")
  if c.args.length != 1 || c.isHelpRequested then
    (ev ++ logger.Debug c.mode ("NArg = " ++ toString c.args.length
            ++ ", ErrHelp = flag: help requested\n"),
     .error .invalidCmdline)
  else
    (ev, .ok (c.args.getD 0 ""))

/-- The command `s3rm`. -/
def main (w : World) (c : Cmdline) : List Event × Exit :=
  match parseCmdline c with
  | (ev, .indexOutOfRange _ _) => (ev, .panicked)
  | (ev, .error _) => (ev ++ printHelp, .code 1)
  | (ev, .ok path) =>
    let ev := ev ++ [.setRegion c.region]
    if IsS3Path path then
      let r := RemoveS3Path w c.mode path
      let f := finish c.mode (path ++ " removed\n") r.2
      (ev ++ logger.Debug c.mode "Calling RemoveS3Path" ++ r.1 ++ f.1, f.2)
    else
      (ev ++ printHelp, .code 1)

end s3rm

/-! ## Definitions used to state and prove the properties -/

/-- A cooperative environment, used for concrete runs. -/
def okWorld : World where
  create := fun _ => none
  openFile := fun _ => none
  newDownloader := true
  newUploader := true
  download := fun _ _ _ => .ok 42
  upload := fun _ bucket key _ => .ok ("https://" ++ bucket ++ "/" ++ key)
  deleteObject := fun _ _ => .ok ""

/-- The scenario of a download. -/
def downloadCmd : Cmdline where
  osArgs := ["s3cp", "s3:mybucket:/folder/backup.tar.gz", "/tmp/backup.tar.gz"]
  args := ["s3:mybucket:/folder/backup.tar.gz", "/tmp/backup.tar.gz"]

/-- The scenario of an upload with the reduced-redundancy flag. -/
def uploadCmd : Cmdline where
  osArgs := ["s3cp", "--rr", "/tmp/backup.tar.gz", "s3:mybucket:/folder"]
  isReducedRedundancy := true
  args := ["/tmp/backup.tar.gz", "s3:mybucket:/folder"]

/-- A copy whose source and destination are both remote paths. -/
def bothRemoteCmd : Cmdline where
  osArgs := ["s3cp", "s3:b1:k1", "s3:b2:k2"]
  args := ["s3:b1:k1", "s3:b2:k2"]

/-- A removal of a remote object. -/
def removeCmd : Cmdline where
  osArgs := ["s3rm", "s3:mybucket:/folder/file.ext"]
  args := ["s3:mybucket:/folder/file.ext"]

/-- Error values that report an invalid remote path. -/
def Err.isPathInvalid : Err → Bool
  | .pathInvalid _ | .sourcePathInvalid _ | .destinationPathInvalid _ => true
  | _ => false

/-- The errors printed by a command, in order. -/
def printed (t : List Event) : List Err :=
  t.filterMap fun
    | .printError e => some e
    | _ => none

namespace lib

open regexp

/-- The decomposition of a remote path read off the pattern: the prefix `s3:`,
the longest run without `:`, one `:`, and a remainder without line feed. -/
def splitS3 (s : List Char) : Option (List Char × List Char) :=
  match s with
  | c1 :: c2 :: c3 :: t =>
    if c1 = 's' ∧ c2 = '3' ∧ c3 = ':' then
      match t.dropWhile (CharClass.notLit ':').matches with
      | [] => none
      | _ :: k =>
        if t.takeWhile (CharClass.notLit ':').matches ≠ [] ∧ k ≠ []
            ∧ k.dropWhile CharClass.anyNotNL.matches = [] then
          some (t.takeWhile (CharClass.notLit ':').matches, k)
        else none
    else none
  | _ => none

/-- The capture registers of a match with bucket `b` and key `k`. -/
def capsOf (bk : List Char × List Char) : Caps :=
  [some 0, some (4 + bk.1.length + bk.2.length), some 3, some (3 + bk.1.length),
   some (4 + bk.1.length), some (4 + bk.1.length + bk.2.length)]

end lib

/-! ## The language of the path pattern -/

namespace regexp

/-- A greedy loop whose continuation cannot start on a rune of the class stops
exactly at the end of the longest run of the class. -/
theorem stepPlus_greedy (k : CharClass) (next : Cont)
    (hnext : ∀ pos c rest cap, k.matches c = true → next pos (c :: rest) cap = none) :
    ∀ (rest : List Char) (pos : Nat) (cap : Caps),
      stepPlus k next pos rest cap =
        if rest.takeWhile k.matches = [] then none
        else next (pos + (rest.takeWhile k.matches).length)
          (rest.dropWhile k.matches) cap := by
  intro rest
  induction rest with
  | nil => intro pos cap; simp [stepPlus]
  | cons r rest ih =>
    intro pos cap
    by_cases hr : k.matches r = true
    · rw [stepPlus, if_pos hr, ih]
      rw [List.takeWhile_cons_of_pos hr, List.dropWhile_cons_of_pos hr]
      simp only [List.length_cons, if_neg (List.cons_ne_nil _ _)]
      cases rest with
      | nil => simp
      | cons c rest1 =>
        by_cases hc : k.matches c = true
        · rw [List.takeWhile_cons_of_pos hc, List.dropWhile_cons_of_pos hc]
          simp only [List.length_cons, if_neg (List.cons_ne_nil _ _)]
          have e : pos + 1 + ((List.takeWhile k.matches rest1).length + 1)
              = pos + ((List.takeWhile k.matches rest1).length + 1 + 1) := by omega
          rw [e]
          cases h : next (pos + ((List.takeWhile k.matches rest1).length + 1 + 1))
              (List.dropWhile k.matches rest1) cap with
          | none => simp [hnext _ _ _ _ hc]
          | some m => rfl
        · rw [List.takeWhile_cons_of_neg hc, List.dropWhile_cons_of_neg hc]
          simp
    · rw [stepPlus, if_neg hr, List.takeWhile_cons_of_neg hr]
      simp

end regexp

namespace lib

open regexp

theorem attempt_zero (s : List Char) :
    s3pathre.attempt 0 s = (splitS3 s).map capsOf := by
  match s with
  | [] => simp [Regexp.attempt, s3pathre, Regexp.run, splitS3]
  | [c1] => 
    simp [Regexp.attempt, s3pathre, Regexp.run, splitS3, CharClass.matches]
  | [c1, c2] => 
    simp [Regexp.attempt, s3pathre, Regexp.run, splitS3, CharClass.matches]
  | c1 :: c2 :: c3 :: t =>
    simp only [Regexp.attempt, s3pathre, Regexp.run, splitS3, CharClass.matches, Regexp.numSubexp]
    by_cases h : c1 = 's' ∧ c2 = '3' ∧ c3 = ':'
    · obtain ⟨rfl, rfl, rfl⟩ := h
      simp only [if_true, beq_self_eq_true, true_and]
      rw [stepPlus_greedy]
      · cases hd : List.dropWhile (CharClass.notLit ':').matches t with
        | nil => simp
        | cons d k =>
          have hd0 : (CharClass.notLit ':').matches d = false := by
            have := List.head_dropWhile_not (CharClass.notLit ':').matches t (by simp [hd])
            simpa [hd] using this
          have hd1 : d = ':' := by simpa [CharClass.matches] using hd0
          subst hd1
          simp only [beq_self_eq_true, if_true]
          rw [stepPlus_greedy]
          · by_cases hb : List.takeWhile (CharClass.notLit ':').matches t = []
            · simp [hb]
            · cases hk : List.dropWhile CharClass.anyNotNL.matches k with
              | nil =>
                have tk : List.takeWhile CharClass.anyNotNL.matches k = k := by
                  have := List.takeWhile_append_dropWhile CharClass.anyNotNL.matches k
                  rw [hk] at this
                  simpa using this
                rw [tk]
                by_cases hkn : k = []
                · simp [hkn]
                · simp [hb, hkn, capsOf, List.replicate]
                  omega
              | cons e l => simp [hb]
          · intro pos c rest cap _; rfl
      · intro pos c rest cap hc
        have : (c == ':') = false := by simpa [CharClass.matches] using hc
        simp [this]
    · have : ¬ ((c1 == 's') = true ∧ (c2 == '3') = true ∧ (c3 == ':') = true) := by
        simpa using h
      rw [if_neg h]
      simp only [if_true]
      by_cases h1 : (c1 == 's') = true
      · by_cases h2 : (c2 == '3') = true
        · by_cases h3 : (c3 == ':') = true
          · exact absurd ⟨h1, h2, h3⟩ this
          · simp [h3]
        · simp [h2]
      · simp [h1]

theorem attempt_succ (pos : Nat) (rest : List Char) :
    s3pathre.attempt (pos + 1) rest = none := by
  simp [Regexp.attempt, s3pathre, Regexp.run]

theorem search_succ (rest : List Char) :
    ∀ pos : Nat, s3pathre.search (pos + 1) rest = none := by
  induction rest with
  | nil => intro pos; rw [Regexp.search, attempt_succ]
  | cons r rest ih => intro pos; rw [Regexp.search, attempt_succ, ih]

/-- The leftmost-first match of the path pattern, in closed form. -/
theorem exec_eq (s : List Char) : s3pathre.exec s = (splitS3 s).map capsOf := by
  cases s with
  | nil => rw [Regexp.exec, Regexp.search, attempt_zero]
  | cons r rest =>
    rw [Regexp.exec, Regexp.search, search_succ, attempt_zero]
    cases (splitS3 (r :: rest)).map capsOf <;> rfl

theorem takeWhile_append_stop {α : Type} (p : α → Bool) (l r : List α) (a : α)
    (hl : ∀ x ∈ l, p x = true) (ha : p a = false) :
    (l ++ a :: r).takeWhile p = l ∧ (l ++ a :: r).dropWhile p = a :: r := by
  induction l with
  | nil => simp [List.takeWhile, List.dropWhile, ha]
  | cons x l ih =>
    have hx : p x = true := hl x (List.mem_cons_self _ _)
    have := ih (fun y hy => hl y (List.mem_cons_of_mem _ hy))
    simp [List.takeWhile, List.dropWhile, hx, this]

theorem dropWhile_eq_nil_iff_all {α : Type} (p : α → Bool) (l : List α) :
    l.dropWhile p = [] ↔ ∀ x ∈ l, p x = true := by
  induction l with
  | nil => simp
  | cons x l ih =>
    by_cases hx : p x = true
    · simp [List.dropWhile, hx, ih]
    · simp [List.dropWhile, hx]

/-- The decomposition succeeds exactly on `s3:` + bucket + `:` + key with a
non-empty bucket free of `:` and a non-empty key free of line feeds. -/
theorem splitS3_eq_some_iff (s b k : List Char) :
    splitS3 s = some (b, k) ↔
      s = 's' :: '3' :: ':' :: (b ++ ':' :: k) ∧ b ≠ [] ∧ ':' ∉ b ∧ k ≠ [] ∧ '\n' ∉ k := by
  constructor
  · intro h
    match s, h with
    | c1 :: c2 :: c3 :: t, h =>
      simp only [splitS3] at h
      split at h
      · rename_i hc
        obtain ⟨rfl, rfl, rfl⟩ := hc
        split at h
        · exact absurd h (by simp)
        · rename_i d k1 hd
          split at h
          · rename_i hcond
            obtain ⟨hb, hk, hnl⟩ := hcond
            simp only [Option.some.injEq, Prod.mk.injEq] at h
            obtain ⟨rfl, rfl⟩ := h
            have hd0 : (CharClass.notLit ':').matches d = false := by
              have := List.head_dropWhile_not (CharClass.notLit ':').matches t (by simp [hd])
              simpa [hd] using this
            have hd1 : d = ':' := by simpa [CharClass.matches] using hd0
            subst hd1
            refine ⟨?_, hb, ?_, hk, ?_⟩
            · have := List.takeWhile_append_dropWhile (CharClass.notLit ':').matches t
              rw [hd] at this
              rw [this]
            · intro hmem
              have := List.mem_takeWhile_imp hmem
              simp [CharClass.matches] at this
            · intro hmem
              have := (dropWhile_eq_nil_iff_all _ _).1 hnl _ hmem
              simp [CharClass.matches] at this
          · exact absurd h (by simp)
      · exact absurd h (by simp)
  · rintro ⟨rfl, hb, hcb, hk, hnk⟩
    have hall : ∀ x ∈ b, (CharClass.notLit ':').matches x = true := by
      intro x hx
      have : x ≠ ':' := fun e => hcb (e ▸ hx)
      simpa [CharClass.matches] using this
    have hstop : (CharClass.notLit ':').matches ':' = false := by
      simp [CharClass.matches]
    obtain ⟨h1, h2⟩ := takeWhile_append_stop _ b k ':' hall hstop
    have h3 : k.dropWhile CharClass.anyNotNL.matches = [] := by
      rw [dropWhile_eq_nil_iff_all]
      intro x hx
      have : x ≠ '\n' := fun e => hnk (e ▸ hx)
      simpa [CharClass.matches] using this
    simp [splitS3, h1, h2, h3, hb, hk]

theorem slice_whole (b k : List Char) :
    sliceStr ('s' :: '3' :: ':' :: (b ++ ':' :: k)) 0 (4 + b.length + k.length)
      = 's' :: '3' :: ':' :: (b ++ ':' :: k) := by
  have : (4 + b.length + k.length) - 0
      = ('s' :: '3' :: ':' :: (b ++ ':' :: k)).length := by
    simp; omega
  rw [sliceStr, this, List.drop_zero, List.take_length]

theorem slice_bucket (b k : List Char) :
    sliceStr ('s' :: '3' :: ':' :: (b ++ ':' :: k)) 3 (3 + b.length) = b := by
  have : 3 + b.length - 3 = b.length := by omega
  rw [sliceStr, this]
  simp

theorem slice_key (b k : List Char) :
    sliceStr ('s' :: '3' :: ':' :: (b ++ ':' :: k)) (4 + b.length)
      (4 + b.length + k.length) = k := by
  have h1 : 4 + b.length + k.length - (4 + b.length) = k.length := by omega
  have h2 : 4 + b.length = (b.length + 1) + 3 := by omega
  rw [sliceStr, h1, h2]
  simp only [List.drop_succ_cons, List.drop_zero]
  have h3 : List.drop (b.length + 1) (b ++ ':' :: k) = k := by
    induction b with
    | nil => rfl
    | cons x b ih => simp
  rw [h3, List.take_length]

/-- The submatch slice in closed form: nil without a match, otherwise the
whole string, the bucket and the key. -/
theorem findStringSubmatch_eq (s : String) :
    FindStringSubmatch s3pathre s =
      match splitS3 s.data with
      | none => []
      | some bk => [s, String.mk bk.1, String.mk bk.2] := by
  rw [FindStringSubmatch, exec_eq]
  cases h : splitS3 s.data with
  | none => rfl
  | some bk =>
    obtain ⟨b, k⟩ := bk
    have hs := ((splitS3_eq_some_iff _ _ _).1 h).1
    have hn : s3pathre.numSubexp = 2 := rfl
    have hr : List.range (2 + 1) = [0, 1, 2] := rfl
    simp only [Option.map_some', hn, hr, List.map_cons, List.map_nil, group, capsOf,
      List.getD_cons_zero, List.getD_cons_succ, Nat.mul_zero, Nat.mul_one, Nat.zero_add]
    rw [hs, slice_whole, slice_bucket, slice_key, ← hs]

theorem isS3Path_eq (s : String) : IsS3Path s = (splitS3 s.data).isSome := by
  rw [IsS3Path, MatchString, exec_eq]
  cases splitS3 s.data <;> rfl

theorem splitS3_nonempty {s b k : List Char} (h : splitS3 s = some (b, k)) :
    b ≠ [] ∧ k ≠ [] := by
  obtain ⟨-, hb, -, hk, -⟩ := (splitS3_eq_some_iff _ _ _).1 h
  exact ⟨hb, hk⟩

/-- The parser in closed form: an index fault without a match, otherwise the
bucket and the key. -/
theorem parseS3Path_eq (s : String) :
    ParseS3Path s =
      match splitS3 s.data with
      | none => .indexOutOfRange 1 0
      | some bk => .ok ⟨String.mk bk.1, String.mk bk.2⟩ := by
  rw [ParseS3Path]
  simp only [findStringSubmatch_eq]
  cases h : splitS3 s.data with
  | none => rfl
  | some bk =>
    obtain ⟨b, k⟩ := bk
    obtain ⟨hb, hk⟩ := splitS3_nonempty h
    simp [hb, hk]

/-- A string equals `"s3:" ++ b ++ ":" ++ k` exactly when its characters are
those of the prefix, of `b`, a colon, and those of `k`. -/
theorem eq_build_iff (s b k : String) :
    s = "s3:" ++ b ++ ":" ++ k ↔
      s.data = 's' :: '3' :: ':' :: (b.data ++ ':' :: k.data) := by
  rw [String.ext_iff]
  simp [String.data_append]

/-! ### From character lists to strings -/

theorem data_ne_nil_iff (s : String) : s.data ≠ [] ↔ s ≠ "" := by
  rw [Ne, Ne, String.ext_iff]

/-- Parsing a well-formed path returns its bucket and key. -/
theorem parse_build (b k : String) (hb : b ≠ "") (hcb : ':' ∉ b.data)
    (hk : k ≠ "") (hnk : '\n' ∉ k.data) :
    ParseS3Path ("s3:" ++ b ++ ":" ++ k) = .ok ⟨b, k⟩ := by
  have hs : splitS3 ("s3:" ++ b ++ ":" ++ k).data = some (b.data, k.data) := by
    rw [splitS3_eq_some_iff]
    exact ⟨(eq_build_iff _ b k).1 rfl, (data_ne_nil_iff b).2 hb, hcb,
      (data_ne_nil_iff k).2 hk, hnk⟩
  rw [parseS3Path_eq, hs]

/-- A successful parse determines the string it was made from. -/
theorem parse_ok_iff (s : String) (p : S3path) :
    ParseS3Path s = .ok p ↔
      s = "s3:" ++ p.Bucket ++ ":" ++ p.Path ∧ p.Bucket ≠ "" ∧ ':' ∉ p.Bucket.data
        ∧ p.Path ≠ "" ∧ '\n' ∉ p.Path.data := by
  constructor
  · intro h
    rw [parseS3Path_eq] at h
    cases hs : splitS3 s.data with
    | none => rw [hs] at h; exact absurd h (by simp)
    | some bk =>
      obtain ⟨b, k⟩ := bk
      rw [hs] at h
      simp only [Result.ok.injEq] at h
      subst h
      obtain ⟨h1, h2, h3, h4, h5⟩ := (splitS3_eq_some_iff _ _ _).1 hs
      exact ⟨(eq_build_iff s ⟨b⟩ ⟨k⟩).2 h1, (data_ne_nil_iff ⟨b⟩).1 h2, h3,
        (data_ne_nil_iff ⟨k⟩).1 h4, h5⟩
  · rintro ⟨h1, h2, h3, h4, h5⟩
    rw [h1]
    exact parse_build _ _ h2 h3 h4 h5

/-- Without a match the parser runs into the index fault at `parts[1]`. -/
theorem parse_of_not_isS3Path (s : String) (h : IsS3Path s = false) :
    ParseS3Path s = .indexOutOfRange 1 0 := by
  rw [isS3Path_eq] at h
  rw [parseS3Path_eq]
  cases hs : splitS3 s.data with
  | none => rfl
  | some bk => rw [hs] at h; exact absurd h (by simp)

/-- With a match the parser succeeds. -/
theorem parse_of_isS3Path (s : String) (h : IsS3Path s = true) :
    ∃ p, ParseS3Path s = .ok p := by
  rw [isS3Path_eq] at h
  rw [parseS3Path_eq]
  cases hs : splitS3 s.data with
  | none => rw [hs] at h; exact absurd h (by simp)
  | some bk => exact ⟨_, rfl⟩

/-- Recognition and successful parsing coincide. -/
theorem isS3Path_iff_ok (s : String) :
    IsS3Path s = true ↔ ∃ p, ParseS3Path s = .ok p := by
  constructor
  · exact parse_of_isS3Path s
  · rintro ⟨p, hp⟩
    cases h : IsS3Path s with
    | true => rfl
    | false =>
      rw [parse_of_not_isS3Path s h] at hp
      exact absurd hp (by simp)

end lib

/-! ## Claims about the path parser -/

namespace lib

open regexp

/-- C1, as amended: for every non-empty container `c` without `:` and every
non-empty key `k` without a line feed, `ParseS3Path ("s3:" + c + ":" + k)`
succeeds and returns exactly `Bucket = c` and `Path = k`. -/
theorem parseS3Path_wellformed (c k : String) (hc : c ≠ "") (hcc : ':' ∉ c.data)
    (hk : k ≠ "") (hnl : '\n' ∉ k.data) :
    ParseS3Path ("s3:" ++ c ++ ":" ++ k) = .ok { Bucket := c, Path := k } :=
  parse_build c k hc hcc hk hnl

/-- C1, witness: the path `s3:mybucket:/folder/file.ext`. -/
theorem parseS3Path_wellformed_witness :
    "mybucket" ≠ "" ∧ ':' ∉ "mybucket".data ∧ "/folder/file.ext" ≠ ""
      ∧ '\n' ∉ "/folder/file.ext".data
      ∧ ParseS3Path ("s3:" ++ "mybucket" ++ ":" ++ "/folder/file.ext")
          = .ok { Bucket := "mybucket", Path := "/folder/file.ext" } :=
  ⟨by decide, by decide, by decide, by decide,
    parseS3Path_wellformed "mybucket" "/folder/file.ext"
      (by decide) (by decide) (by decide) (by decide)⟩

/-- C1, counterexample: the claim as stated (a key of any characters) fails for
the container `b` and the key `x`, line feed, `y`: the pattern does not match
and the parse ends in the index fault instead of returning a path. -/
theorem parseS3Path_any_key_fails :
    ¬ (∀ c k : String, c ≠ "" → ':' ∉ c.data → k ≠ "" →
        ParseS3Path ("s3:" ++ c ++ ":" ++ k) = .ok { Bucket := c, Path := k }) :=
  fun h => absurd (h "b" "x\ny" (by decide) (by decide) (by decide)) (by decide)

/-- C2, the code at the failing inputs: on `s3::/folder/file`, on the empty
string, on a local path and on a prefixed string without second colon the
submatch slice is nil and `ParseS3Path` ends in an index-out-of-range panic at
`parts[1]`; it does not return the path-invalid error. -/
theorem parseS3Path_malformed_panics :
    FindStringSubmatch s3pathre "s3::/folder/file" = []
      ∧ ParseS3Path "s3::/folder/file" = .indexOutOfRange 1 0
      ∧ ParseS3Path "" = .indexOutOfRange 1 0
      ∧ ParseS3Path "/tmp/backup.tar.gz" = .indexOutOfRange 1 0
      ∧ ParseS3Path "s3:mybucket" = .indexOutOfRange 1 0
      ∧ ParseS3Path "s3::/folder/file" ≠ .error (.pathInvalid "s3::/folder/file") := by
  decide

/-- C3: `IsS3Path s` is true if and only if `ParseS3Path s` succeeds, that is,
returns a path and a nil error. -/
theorem isS3Path_iff_parse_succeeds (s : String) :
    IsS3Path s = true ↔ ∃ p, ParseS3Path s = .ok p :=
  isS3Path_iff_ok s

/-- C4: for every path `p` returned by a successful `ParseS3Path`, parsing
`"s3:" + p.Bucket + ":" + p.Path` succeeds and yields the same bucket and the
same key. -/
theorem parseS3Path_roundtrip (s : String) (p : S3path) (h : ParseS3Path s = .ok p) :
    ParseS3Path ("s3:" ++ p.Bucket ++ ":" ++ p.Path) = .ok p := by
  obtain ⟨-, h2, h3, h4, h5⟩ := (parse_ok_iff s p).1 h
  exact parse_build p.Bucket p.Path h2 h3 h4 h5

/-- C4, witness: the path `s3:mybucket:/folder/backup.tar.gz`. -/
theorem parseS3Path_roundtrip_witness :
    ParseS3Path "s3:mybucket:/folder/backup.tar.gz"
        = .ok { Bucket := "mybucket", Path := "/folder/backup.tar.gz" }
      ∧ ParseS3Path ("s3:" ++ "mybucket" ++ ":" ++ "/folder/backup.tar.gz")
        = .ok { Bucket := "mybucket", Path := "/folder/backup.tar.gz" } :=
  ⟨by decide,
    parseS3Path_roundtrip "s3:mybucket:/folder/backup.tar.gz"
      { Bucket := "mybucket", Path := "/folder/backup.tar.gz" } (by decide)⟩

/-- C10: the exact language of the path pattern. `IsS3Path s` holds if and only
if `s = "s3:" + b + ":" + k` for a non-empty `b` without `:` and a non-empty
`k` without line feed; such `b` and `k` are unique, they are the two groups of
the match, and `b` is the text between the prefix and the first following `:`.
The bucket may contain a line feed and the key further colons; the empty string
and a key with a line feed are rejected. -/
theorem s3pathre_language :
    (∀ s : String, IsS3Path s = true ↔
        ∃ b k : String, s = "s3:" ++ b ++ ":" ++ k ∧ b ≠ "" ∧ ':' ∉ b.data
          ∧ k ≠ "" ∧ '\n' ∉ k.data)
    ∧ (∀ b k b1 k1 : String, ':' ∉ b.data → ':' ∉ b1.data →
        "s3:" ++ b ++ ":" ++ k = "s3:" ++ b1 ++ ":" ++ k1 → b = b1 ∧ k = k1)
    ∧ (∀ b k : String, b ≠ "" → ':' ∉ b.data → k ≠ "" → '\n' ∉ k.data →
        FindStringSubmatch s3pathre ("s3:" ++ b ++ ":" ++ k)
            = ["s3:" ++ b ++ ":" ++ k, b, k]
          ∧ b.data = (("s3:" ++ b ++ ":" ++ k).data.drop 3).takeWhile (fun x => x != ':'))
    ∧ FindStringSubmatch s3pathre "s3:b:x:y" = ["s3:b:x:y", "b", "x:y"]
    ∧ FindStringSubmatch s3pathre "s3:a\nb:k" = ["s3:a\nb:k", "a\nb", "k"]
    ∧ IsS3Path "" = false
    ∧ IsS3Path "s3:b:x\ny" = false := by
  refine ⟨?_, ?_, ?_, by decide, by decide, by decide, by decide⟩
  · intro s
    rw [isS3Path_iff_ok]
    constructor
    · rintro ⟨p, hp⟩
      exact ⟨p.Bucket, p.Path, (parse_ok_iff s p).1 hp⟩
    · rintro ⟨b, k, h⟩
      exact ⟨⟨b, k⟩, (parse_ok_iff s ⟨b, k⟩).2 h⟩
  · intro b k b1 k1 hb hb1 h
    have e := (eq_build_iff _ b1 k1).1 h
    rw [(eq_build_iff _ b k).1 rfl] at e
    simp only [List.cons.injEq, true_and] at e
    have stop : (fun x : Char => x != ':') ':' = false := by simp
    have all : ∀ l : List Char, ':' ∉ l → ∀ x ∈ l, (fun x : Char => x != ':') x = true := by
      intro l hl x hx
      have : x ≠ ':' := fun e => hl (e ▸ hx)
      simpa using this
    obtain ⟨t1, d1⟩ := takeWhile_append_stop _ b.data k.data ':' (all _ hb) stop
    obtain ⟨t2, d2⟩ := takeWhile_append_stop _ b1.data k1.data ':' (all _ hb1) stop
    rw [e] at t1 d1
    rw [t1] at t2
    rw [d1] at d2
    simp only [List.cons.injEq, true_and] at d2
    exact ⟨String.ext t2, String.ext d2⟩
  · intro b k hb hcb hk hnk
    have hs : splitS3 ("s3:" ++ b ++ ":" ++ k).data = some (b.data, k.data) := by
      rw [splitS3_eq_some_iff]
      exact ⟨(eq_build_iff _ b k).1 rfl, (data_ne_nil_iff b).2 hb, hcb,
        (data_ne_nil_iff k).2 hk, hnk⟩
    constructor
    · rw [findStringSubmatch_eq, hs]
    · rw [(eq_build_iff _ b k).1 rfl]
      have all : ∀ x ∈ b.data, (fun x : Char => x != ':') x = true := by
        intro x hx
        have : x ≠ ':' := fun e => hcb (e ▸ hx)
        simpa using this
      have := (takeWhile_append_stop (fun x : Char => x != ':') b.data k.data ':' all
        (by simp)).1
      simp only [List.drop_succ_cons, List.drop_zero]
      exact this.symm

end lib

/-! ## Traces of the library operations and of the commands -/

theorem calls_append (a b : List Event) : calls (a ++ b) = calls a ++ calls b :=
  List.filter_append a b

theorem calls_Debug (m : logger.Mode) (s : String) : calls (logger.Debug m s) = [] := by
  unfold logger.Debug
  split <;> rfl

theorem isCall_of_mem_Debug (m : logger.Mode) (s : String) (a : Event)
    (h : a ∈ logger.Debug m s) : a.isCall = false := by
  unfold logger.Debug at h
  split at h
  · rw [List.mem_singleton] at h
    rw [h]
    rfl
  · exact absurd h (List.not_mem_nil a)

theorem calls_setRegion (r : String) : calls [.setRegion r] = [] := rfl

theorem calls_Log (m : logger.Mode) (s : String) : calls (logger.Log m s) = [] := by
  unfold logger.Log
  split <;> rfl

theorem calls_finish (m : logger.Mode) (done : String) (r : Result Unit) :
    calls (finish m done r).1 = [] := by
  cases r with
  | ok a => exact calls_Log m done
  | error e => rfl
  | indexOutOfRange i n => rfl

theorem printed_append (a b : List Event) : printed (a ++ b) = printed a ++ printed b :=
  List.filterMap_append a b _

theorem printed_Debug (m : logger.Mode) (s : String) : printed (logger.Debug m s) = [] := by
  unfold logger.Debug
  split <;> rfl

theorem printed_Log (m : logger.Mode) (s : String) : printed (logger.Log m s) = [] := by
  unfold logger.Log
  split <;> rfl

namespace lib

/-- The calls of a download whose source parses. -/
theorem calls_copyFromS3 (w : World) (m : logger.Mode) (source destination : String)
    (p : S3path) (hp : ParseS3Path source = .ok p) :
    calls (CopyFromS3 w m source destination).1 =
      .create destination ::
        (if w.create destination = none ∧ w.newDownloader = true then
          [.getObject destination p.Bucket p.Path, .close destination]
        else []) := by
  simp only [CopyFromS3, hp]
  cases hc : w.create destination with
  | some err => simp [calls, Event.isCall]
  | none =>
    cases hd : w.newDownloader with
    | false => simp [calls, Event.isCall]
    | true =>
      cases hr : w.download destination p.Bucket p.Path with
      | error err => simp [calls, Event.isCall]
      | ok n =>
        simp [calls, Event.isCall]
        exact fun a ha => isCall_of_mem_Debug _ _ a ha

/-- The calls of an upload whose destination parses. -/
theorem calls_copyToS3 (w : World) (m : logger.Mode) (source destination : String)
    (rr : Bool) (p : S3path) (hp : ParseS3Path destination = .ok p) :
    calls (CopyToS3 w m source destination rr).1 =
      .openFile source ::
        (if w.openFile source = none ∧ w.newUploader = true then
          [.putObject source p.Bucket p.Path
              (if rr then some "REDUCED_REDUNDANCY" else none),
            .close source]
        else []) := by
  simp only [CopyToS3, hp]
  cases hc : w.openFile source with
  | some err => simp [calls, Event.isCall]
  | none =>
    cases hd : w.newUploader with
    | false => simp [calls, Event.isCall]
    | true =>
      cases hr : w.upload source p.Bucket p.Path
          (if rr then some "REDUCED_REDUNDANCY" else none) with
      | error err => simp [calls, Event.isCall]
      | ok n =>
        simp [calls, Event.isCall]
        exact fun a ha => isCall_of_mem_Debug _ _ a ha

/-- The calls of a removal whose path parses. -/
theorem calls_removeS3Path (w : World) (m : logger.Mode) (path : String)
    (p : S3path) (hp : ParseS3Path path = .ok p) :
    calls (RemoveS3Path w m path).1 = [.deleteObject p.Bucket p.Path] := by
  simp only [RemoveS3Path, hp]
  cases hr : w.deleteObject p.Bucket p.Path with
  | error err => simp [calls, Event.isCall]
  | ok n =>
    simp [calls, Event.isCall]
    exact fun a ha => isCall_of_mem_Debug _ _ a ha

/-- No library operation prints an error itself. -/
theorem printed_copyFromS3 (w : World) (m : logger.Mode) (source destination : String) :
    printed (CopyFromS3 w m source destination).1 = [] := by
  unfold CopyFromS3
  repeat' split
  all_goals first | rfl | (simp only [printed_append, printed_Debug]; rfl)

theorem printed_copyToS3 (w : World) (m : logger.Mode) (source destination : String)
    (rr : Bool) : printed (CopyToS3 w m source destination rr).1 = [] := by
  unfold CopyToS3
  repeat' split
  all_goals first
    | rfl
    | (dsimp only
       split
       · rfl
       · simp only [printed_append, printed_Debug]
         rfl)

theorem printed_removeS3Path (w : World) (m : logger.Mode) (path : String) :
    printed (RemoveS3Path w m path).1 = [] := by
  unfold RemoveS3Path
  repeat' split
  all_goals first | rfl | (simp only [printed_append, printed_Debug]; rfl)

/-- After a successful parse a download neither panics nor reports an invalid
path. -/
theorem copyFromS3_result (w : World) (m : logger.Mode) (source destination : String)
    (p : S3path) (hp : ParseS3Path source = .ok p) :
    (CopyFromS3 w m source destination).2 = .ok () ∨
      ∃ e, (CopyFromS3 w m source destination).2 = .error e ∧ e.isPathInvalid = false := by
  simp only [CopyFromS3, hp]
  cases w.create destination with
  | some err => exact Or.inr ⟨_, rfl, rfl⟩
  | none =>
    cases w.newDownloader with
    | false => exact Or.inr ⟨_, rfl, rfl⟩
    | true =>
      cases w.download destination p.Bucket p.Path with
      | error err => exact Or.inr ⟨_, rfl, rfl⟩
      | ok n => exact Or.inl rfl

theorem copyToS3_result (w : World) (m : logger.Mode) (source destination : String)
    (rr : Bool) (p : S3path) (hp : ParseS3Path destination = .ok p) :
    (CopyToS3 w m source destination rr).2 = .ok () ∨
      ∃ e, (CopyToS3 w m source destination rr).2 = .error e
        ∧ e.isPathInvalid = false := by
  simp only [CopyToS3, hp]
  cases w.openFile source with
  | some err => exact Or.inr ⟨_, rfl, rfl⟩
  | none =>
    cases w.newUploader with
    | false => exact Or.inr ⟨_, rfl, rfl⟩
    | true =>
      cases w.upload source p.Bucket p.Path
          (if rr then some "REDUCED_REDUNDANCY" else none) with
      | error err => exact Or.inr ⟨_, rfl, rfl⟩
      | ok n => exact Or.inl rfl

theorem removeS3Path_result (w : World) (m : logger.Mode) (path : String)
    (p : S3path) (hp : ParseS3Path path = .ok p) :
    (RemoveS3Path w m path).2 =
      match w.deleteObject p.Bucket p.Path with
      | .ok _ => .ok ()
      | .error err => .error (.external err) := by
  simp only [RemoveS3Path, hp]
  cases w.deleteObject p.Bucket p.Path <;> rfl

end lib

namespace s3cp

open lib

theorem parseCmdline_two (c : Cmdline) (a b : String) (hargs : c.args = [a, b])
    (hhelp : c.isHelpRequested = false) :
    parseCmdline c =
      (logger.Debug c.mode ("got args '" ++ fmtStrings c.osArgs ++ "'\n"), .ok (a, b)) := by
  simp [parseCmdline, hargs, hhelp]

/-- The run of `s3cp` on a remote source. -/
theorem main_download (w : World) (c : Cmdline) (a b : String) (hargs : c.args = [a, b])
    (hhelp : c.isHelpRequested = false) (ha : IsS3Path a = true) :
    main w c =
      (logger.Debug c.mode ("got args '" ++ fmtStrings c.osArgs ++ "'\n")
          ++ [.setRegion c.region] ++ logger.Debug c.mode "Calling copyFromS3"
          ++ (CopyFromS3 w c.mode a b).1
          ++ (finish c.mode (a ++ " -> " ++ b ++ " : transfer complete\n")
                (CopyFromS3 w c.mode a b).2).1,
       (finish c.mode (a ++ " -> " ++ b ++ " : transfer complete\n")
          (CopyFromS3 w c.mode a b).2).2) := by
  simp only [main, parseCmdline_two c a b hargs hhelp, ha, if_true]

/-- The run of `s3cp` on a local source and a remote destination. -/
theorem main_upload (w : World) (c : Cmdline) (a b : String) (hargs : c.args = [a, b])
    (hhelp : c.isHelpRequested = false) (ha : IsS3Path a = false)
    (hb : IsS3Path b = true) :
    main w c =
      (logger.Debug c.mode ("got args '" ++ fmtStrings c.osArgs ++ "'\n")
          ++ [.setRegion c.region] ++ logger.Debug c.mode "Calling copyToS3"
          ++ (CopyToS3 w c.mode a b c.isReducedRedundancy).1
          ++ (finish c.mode (a ++ " -> " ++ b ++ " : transfer complete\n")
                (CopyToS3 w c.mode a b c.isReducedRedundancy).2).1,
       (finish c.mode (a ++ " -> " ++ b ++ " : transfer complete\n")
          (CopyToS3 w c.mode a b c.isReducedRedundancy).2).2) := by
  simp only [main, parseCmdline_two c a b hargs hhelp, ha, hb, if_true]
  simp

/-- The run of `s3cp` on two local paths. -/
theorem main_neither (w : World) (c : Cmdline) (a b : String) (hargs : c.args = [a, b])
    (hhelp : c.isHelpRequested = false) (ha : IsS3Path a = false)
    (hb : IsS3Path b = false) :
    main w c =
      (logger.Debug c.mode ("got args '" ++ fmtStrings c.osArgs ++ "'\n")
          ++ [.setRegion c.region] ++ printHelp, .code 1) := by
  simp only [main, parseCmdline_two c a b hargs hhelp, ha, hb]
  simp

/-- The run of `s3cp` on a rejected command line. -/
theorem cp_main_usage (w : World) (c : Cmdline)
    (h : (c.args.length != 2 || c.isHelpRequested) = true) :
    main w c =
      (logger.Debug c.mode ("got args '" ++ fmtStrings c.osArgs ++ "'\n")
        ++ logger.Debug c.mode ("NArg = " ++ toString c.args.length
              ++ ", ErrHelp = flag: help requested\n")
        ++ printHelp, .code 1) := by
  simp only [main, parseCmdline, h, if_true]

/-- Every accepted command line has exactly two positional arguments. -/
theorem cp_args_of_accepted (c : Cmdline)
    (h : (c.args.length != 2 || c.isHelpRequested) = false) :
    ∃ a b, c.args = [a, b] ∧ c.isHelpRequested = false := by
  simp only [Bool.or_eq_false_iff, bne_eq_false_iff_eq] at h
  obtain ⟨hl, hh⟩ := h
  match hc : c.args, hl with
  | [a, b], _ => exact ⟨a, b, rfl, hh⟩

end s3cp

namespace s3rm

open lib

theorem parseCmdline_one (c : Cmdline) (path : String) (hargs : c.args = [path])
    (hhelp : c.isHelpRequested = false) :
    parseCmdline c =
      (logger.Debug c.mode ("got args '" ++ fmtStrings c.osArgs ++ "'\n"), .ok path) := by
  simp [parseCmdline, hargs, hhelp]

/-- The run of `s3rm` on a remote path. -/
theorem main_remote (w : World) (c : Cmdline) (path : String) (hargs : c.args = [path])
    (hhelp : c.isHelpRequested = false) (hp : IsS3Path path = true) :
    main w c =
      (logger.Debug c.mode ("got args '" ++ fmtStrings c.osArgs ++ "'\n")
          ++ [.setRegion c.region] ++ logger.Debug c.mode "Calling RemoveS3Path"
          ++ (RemoveS3Path w c.mode path).1
          ++ (finish c.mode (path ++ " removed\n") (RemoveS3Path w c.mode path).2).1,
       (finish c.mode (path ++ " removed\n") (RemoveS3Path w c.mode path).2).2) := by
  simp only [main, parseCmdline_one c path hargs hhelp, hp, if_true]

/-- The run of `s3rm` on a path that is not remote. -/
theorem main_local (w : World) (c : Cmdline) (path : String) (hargs : c.args = [path])
    (hhelp : c.isHelpRequested = false) (hp : IsS3Path path = false) :
    main w c =
      (logger.Debug c.mode ("got args '" ++ fmtStrings c.osArgs ++ "'\n")
          ++ [.setRegion c.region] ++ printHelp, .code 1) := by
  simp only [main, parseCmdline_one c path hargs hhelp, hp]
  simp

/-- The run of `s3rm` on a rejected command line. -/
theorem rm_main_usage (w : World) (c : Cmdline)
    (h : (c.args.length != 1 || c.isHelpRequested) = true) :
    main w c =
      (logger.Debug c.mode ("got args '" ++ fmtStrings c.osArgs ++ "'\n")
        ++ logger.Debug c.mode ("NArg = " ++ toString c.args.length
              ++ ", ErrHelp = flag: help requested\n")
        ++ printHelp, .code 1) := by
  simp only [main, parseCmdline, h, if_true]

/-- Every accepted command line has exactly one positional argument. -/
theorem rm_args_of_accepted (c : Cmdline)
    (h : (c.args.length != 1 || c.isHelpRequested) = false) :
    ∃ path, c.args = [path] ∧ c.isHelpRequested = false := by
  simp only [Bool.or_eq_false_iff, bne_eq_false_iff_eq] at h
  obtain ⟨hl, hh⟩ := h
  match hc : c.args, hl with
  | [a], _ => exact ⟨a, rfl, hh⟩

end s3rm

theorem printed_setRegion (r : String) : printed [.setRegion r] = [] := rfl

/-- The end of a command after an operation that neither panicked nor
reported an invalid path. -/
theorem finish_safe (m : logger.Mode) (done : String) (r : Result Unit)
    (h : r = .ok () ∨ ∃ e, r = .error e ∧ e.isPathInvalid = false) :
    (finish m done r).2 ≠ .panicked
      ∧ ∀ e ∈ printed (finish m done r).1, e.isPathInvalid = false := by
  rcases h with rfl | ⟨e, rfl, he⟩
  · refine ⟨by simp [finish], ?_⟩
    intro e he
    rw [finish, printed_Log] at he
    exact absurd he (List.not_mem_nil e)
  · refine ⟨by simp [finish], ?_⟩
    intro e1 he1
    have : e1 = e := by simpa [finish, printed] using he1
    rw [this]
    exact he

/-! ## Claims about the commands -/

/-- C5: for source `a` and destination `b` given to the s3cp dispatcher, if `a`
is a remote path and `b` is not, the calls of the run are those of
`CopyFromS3 a b`: the local file `b` is created and the object with the
container and key parsed from `a` is fetched into it, and nothing is uploaded;
if `b` is a remote path and `a` is not, the calls are those of `CopyToS3 a b`:
the local file `a` is opened and put to the container and key parsed from `b`,
and nothing is downloaded. -/
theorem s3cp_dispatch (w : World) (c : Cmdline) (a b : String)
    (hargs : c.args = [a, b]) (hhelp : c.isHelpRequested = false) :
    (lib.IsS3Path a = true → lib.IsS3Path b = false →
      ∃ p, lib.ParseS3Path a = .ok p
        ∧ calls (s3cp.main w c).1 = calls (lib.CopyFromS3 w c.mode a b).1
        ∧ calls (s3cp.main w c).1 =
            .create b ::
              (if w.create b = none ∧ w.newDownloader = true then
                [.getObject b p.Bucket p.Path, .close b]
              else []))
    ∧ (lib.IsS3Path a = false → lib.IsS3Path b = true →
      ∃ p, lib.ParseS3Path b = .ok p
        ∧ calls (s3cp.main w c).1
            = calls (lib.CopyToS3 w c.mode a b c.isReducedRedundancy).1
        ∧ calls (s3cp.main w c).1 =
            .openFile a ::
              (if w.openFile a = none ∧ w.newUploader = true then
                [.putObject a p.Bucket p.Path
                    (if c.isReducedRedundancy then some "REDUCED_REDUNDANCY" else none),
                  .close a]
              else [])) := by
  constructor
  · intro ha _
    obtain ⟨p, hp⟩ := lib.parse_of_isS3Path a ha
    have e : calls (s3cp.main w c).1 = calls (lib.CopyFromS3 w c.mode a b).1 := by
      rw [s3cp.main_download w c a b hargs hhelp ha]
      simp only [calls_append, calls_Debug, calls_finish, calls_setRegion,
        List.nil_append, List.append_nil]
    exact ⟨p, hp, e, e.trans (lib.calls_copyFromS3 w c.mode a b p hp)⟩
  · intro ha hb
    obtain ⟨p, hp⟩ := lib.parse_of_isS3Path b hb
    have e : calls (s3cp.main w c).1
        = calls (lib.CopyToS3 w c.mode a b c.isReducedRedundancy).1 := by
      rw [s3cp.main_upload w c a b hargs hhelp ha hb]
      simp only [calls_append, calls_Debug, calls_finish, calls_setRegion,
        List.nil_append, List.append_nil]
    exact ⟨p, hp, e, e.trans (lib.calls_copyToS3 w c.mode a b _ p hp)⟩

/-- C5, witness: `s3cp s3:mybucket:/folder/backup.tar.gz /tmp/backup.tar.gz` is
a download from container `mybucket`, key `/folder/backup.tar.gz`, to
`/tmp/backup.tar.gz`. -/
theorem s3cp_dispatch_witness :
    lib.IsS3Path "s3:mybucket:/folder/backup.tar.gz" = true
    ∧ lib.IsS3Path "/tmp/backup.tar.gz" = false
    ∧ (∃ p, lib.ParseS3Path "s3:mybucket:/folder/backup.tar.gz" = .ok p
        ∧ calls (s3cp.main okWorld downloadCmd).1
            = calls (lib.CopyFromS3 okWorld downloadCmd.mode
                "s3:mybucket:/folder/backup.tar.gz" "/tmp/backup.tar.gz").1
        ∧ calls (s3cp.main okWorld downloadCmd).1 =
            .create "/tmp/backup.tar.gz" ::
              (if okWorld.create "/tmp/backup.tar.gz" = none
                  ∧ okWorld.newDownloader = true then
                [.getObject "/tmp/backup.tar.gz" p.Bucket p.Path,
                  .close "/tmp/backup.tar.gz"]
              else []))
    ∧ calls (s3cp.main okWorld downloadCmd).1 =
        [.create "/tmp/backup.tar.gz",
          .getObject "/tmp/backup.tar.gz" "mybucket" "/folder/backup.tar.gz",
          .close "/tmp/backup.tar.gz"] :=
  ⟨by decide, by decide,
    (s3cp_dispatch okWorld downloadCmd "s3:mybucket:/folder/backup.tar.gz"
      "/tmp/backup.tar.gz" rfl rfl).1 (by decide) (by decide),
    by decide⟩

/-- C6, the code at the failing input: with the remote source `s3:b1:k1` and
the remote destination `s3:b2:k2` the dispatcher does not show the usage; it
creates a local file named `s3:b2:k2`, fetches the object `k1` of `b1` into it
and exits with code 0. -/
theorem s3cp_both_remote_downloads :
    lib.IsS3Path "s3:b1:k1" = true
    ∧ lib.IsS3Path "s3:b2:k2" = true
    ∧ calls (s3cp.main okWorld bothRemoteCmd).1 =
        [.create "s3:b2:k2", .getObject "s3:b2:k2" "b1" "k1", .close "s3:b2:k2"]
    ∧ (s3cp.main okWorld bothRemoteCmd).2 = .code 0
    ∧ Event.usage ∉ (s3cp.main okWorld bothRemoteCmd).1 := by
  decide

/-- C7: for every path argument that is not a remote path, `s3rm` with one
positional argument and no `--help` exits with code 1 and issues no call at
all, in particular no delete; for a remote path it issues exactly one delete,
for the parsed container and key, and exits with 0 if that call succeeds and
with 1 if it fails. -/
theorem s3rm_main_delete (w : World) (c : Cmdline) (path : String)
    (hargs : c.args = [path]) (hhelp : c.isHelpRequested = false) :
    (lib.IsS3Path path = false →
      (s3rm.main w c).2 = .code 1 ∧ calls (s3rm.main w c).1 = [])
    ∧ (lib.IsS3Path path = true →
      ∃ p, lib.ParseS3Path path = .ok p
        ∧ calls (s3rm.main w c).1 = [.deleteObject p.Bucket p.Path]
        ∧ (s3rm.main w c).2 =
            match w.deleteObject p.Bucket p.Path with
            | .ok _ => .code 0
            | .error _ => .code 1) := by
  constructor
  · intro hp
    rw [s3rm.main_local w c path hargs hhelp hp]
    refine ⟨rfl, ?_⟩
    simp only [calls_append, calls_Debug, calls_setRegion, List.nil_append]
    rfl
  · intro hp
    obtain ⟨p, hpp⟩ := lib.parse_of_isS3Path path hp
    rw [s3rm.main_remote w c path hargs hhelp hp]
    refine ⟨p, hpp, ?_, ?_⟩
    · simp only [calls_append, calls_Debug, calls_finish, calls_setRegion,
        List.nil_append, List.append_nil]
      exact lib.calls_removeS3Path w c.mode path p hpp
    · simp only [lib.removeS3Path_result w c.mode path p hpp]
      cases w.deleteObject p.Bucket p.Path <;> rfl

/-- C7, witness: `s3rm s3:mybucket:/folder/file.ext` in a cooperative
environment issues the one delete for bucket `mybucket` and key
`/folder/file.ext` and exits with code 0. -/
theorem s3rm_main_delete_witness :
    lib.IsS3Path "s3:mybucket:/folder/file.ext" = true
    ∧ (∃ p, lib.ParseS3Path "s3:mybucket:/folder/file.ext" = .ok p
        ∧ calls (s3rm.main okWorld removeCmd).1 = [.deleteObject p.Bucket p.Path]
        ∧ (s3rm.main okWorld removeCmd).2 =
            match okWorld.deleteObject p.Bucket p.Path with
            | .ok _ => .code 0
            | .error _ => .code 1)
    ∧ calls (s3rm.main okWorld removeCmd).1
        = [.deleteObject "mybucket" "/folder/file.ext"]
    ∧ (s3rm.main okWorld removeCmd).2 = .code 0 :=
  ⟨by decide,
    (s3rm_main_delete okWorld removeCmd "s3:mybucket:/folder/file.ext" rfl rfl).2
      (by decide),
    by decide, by decide⟩

/-- C8: for every upload performed by `CopyToS3 source destination rr` with a
destination that parses, a readable source and an uploader, the put request
carries the bucket and key of the parse of the destination and its storage
class is `REDUCED_REDUNDANCY` if and only if `rr` is true, unset otherwise;
and the run of `s3cp` on a remote source, hence the get request of a download,
is the same whatever the value of the flag `--rr`. -/
theorem copyToS3_put_request (w : World) (m : logger.Mode) (source destination : String)
    (rr : Bool) (p : lib.S3path) (hp : lib.ParseS3Path destination = .ok p)
    (hopen : w.openFile source = none) (hup : w.newUploader = true) :
    (∃ hint : Option String,
        calls (lib.CopyToS3 w m source destination rr).1 =
            [.openFile source, .putObject source p.Bucket p.Path hint, .close source]
        ∧ (hint = some "REDUCED_REDUNDANCY" ↔ rr = true)
        ∧ (hint = none ↔ rr = false))
    ∧ (∀ (c : Cmdline) (a b : String) (flag : Bool), c.args = [a, b] →
        c.isHelpRequested = false → lib.IsS3Path a = true →
        s3cp.main w { c with isReducedRedundancy := flag } = s3cp.main w c) := by
  constructor
  · refine ⟨if rr then some "REDUCED_REDUNDANCY" else none, ?_, ?_, ?_⟩
    · rw [lib.calls_copyToS3 w m source destination rr p hp, if_pos ⟨hopen, hup⟩]
    · cases rr <;> simp
    · cases rr <;> simp
  · intro c a b flag hargs hhelp ha
    rw [s3cp.main_download w c a b hargs hhelp ha,
      s3cp.main_download w { c with isReducedRedundancy := flag } a b hargs hhelp ha]
    rfl

/-- C8, witness: `s3cp --rr /tmp/backup.tar.gz s3:mybucket:/folder` uploads to
bucket `mybucket`, key `/folder`, with the storage class set. -/
theorem copyToS3_put_request_witness :
    lib.ParseS3Path "s3:mybucket:/folder" = .ok { Bucket := "mybucket", Path := "/folder" }
    ∧ (∃ hint : Option String,
        calls (lib.CopyToS3 okWorld uploadCmd.mode "/tmp/backup.tar.gz"
            "s3:mybucket:/folder" true).1 =
            [.openFile "/tmp/backup.tar.gz",
              .putObject "/tmp/backup.tar.gz" "mybucket" "/folder" hint,
              .close "/tmp/backup.tar.gz"]
        ∧ (hint = some "REDUCED_REDUNDANCY" ↔ true = true)
        ∧ (hint = none ↔ true = false))
    ∧ calls (s3cp.main okWorld uploadCmd).1 =
        [.openFile "/tmp/backup.tar.gz",
          .putObject "/tmp/backup.tar.gz" "mybucket" "/folder" (some "REDUCED_REDUNDANCY"),
          .close "/tmp/backup.tar.gz"] :=
  ⟨by decide,
    (copyToS3_put_request okWorld uploadCmd.mode "/tmp/backup.tar.gz"
      "s3:mybucket:/folder" true { Bucket := "mybucket", Path := "/folder" }
      (by decide) rfl rfl).1,
    by decide⟩

/-- C9: every call of `ParseS3Path` made by the two commands is on a string
accepted by `IsS3Path`; on such a string the submatch slice has three
elements, so `parts[1]` and `parts[2]` are in range, both groups are
non-empty, and `ParseS3Path` returns a path with a nil error. Hence for every
command line and every environment neither `s3cp` nor `s3rm` ends in the index
fault, and neither prints an error that reports an invalid path. -/
theorem commands_never_fault :
    (∀ s : String, lib.IsS3Path s = true →
      (regexp.FindStringSubmatch lib.s3pathre s).length = 3
        ∧ ∃ b k : String, (regexp.FindStringSubmatch lib.s3pathre s)[1]? = some b
          ∧ (regexp.FindStringSubmatch lib.s3pathre s)[2]? = some k
          ∧ b ≠ "" ∧ k ≠ "" ∧ lib.ParseS3Path s = .ok { Bucket := b, Path := k })
    ∧ (∀ (w : World) (c : Cmdline), (s3cp.main w c).2 ≠ .panicked
        ∧ ∀ e ∈ printed (s3cp.main w c).1, e.isPathInvalid = false)
    ∧ (∀ (w : World) (c : Cmdline), (s3rm.main w c).2 ≠ .panicked
        ∧ ∀ e ∈ printed (s3rm.main w c).1, e.isPathInvalid = false) := by
  refine ⟨?_, ?_, ?_⟩
  · intro s hs
    rw [lib.isS3Path_eq] at hs
    cases h : lib.splitS3 s.data with
    | none => rw [h] at hs; exact absurd hs (by simp)
    | some bk =>
      obtain ⟨b, k⟩ := bk
      obtain ⟨hb, hk⟩ := lib.splitS3_nonempty h
      rw [lib.findStringSubmatch_eq, lib.parseS3Path_eq, h]
      exact ⟨rfl, ⟨b⟩, ⟨k⟩, rfl, rfl, (lib.data_ne_nil_iff ⟨b⟩).1 hb,
        (lib.data_ne_nil_iff ⟨k⟩).1 hk, rfl⟩
  · intro w c
    cases hacc : (c.args.length != 2 || c.isHelpRequested) with
    | true =>
      rw [s3cp.cp_main_usage w c hacc]
      refine ⟨by simp, ?_⟩
      intro e he
      simp only [printed_append, printed_Debug, List.nil_append] at he
      exact absurd he (List.not_mem_nil e)
    | false =>
      obtain ⟨a, b, hargs, hhelp⟩ := s3cp.cp_args_of_accepted c hacc
      cases ha : lib.IsS3Path a with
      | true =>
        obtain ⟨p, hp⟩ := lib.parse_of_isS3Path a ha
        rw [s3cp.main_download w c a b hargs hhelp ha]
        simp only [printed_append, printed_Debug, printed_setRegion,
          lib.printed_copyFromS3, List.nil_append]
        exact finish_safe _ _ _ (lib.copyFromS3_result w c.mode a b p hp)
      | false =>
        cases hb : lib.IsS3Path b with
        | true =>
          obtain ⟨p, hp⟩ := lib.parse_of_isS3Path b hb
          rw [s3cp.main_upload w c a b hargs hhelp ha hb]
          simp only [printed_append, printed_Debug, printed_setRegion,
            lib.printed_copyToS3, List.nil_append]
          exact finish_safe _ _ _ (lib.copyToS3_result w c.mode a b _ p hp)
        | false =>
          rw [s3cp.main_neither w c a b hargs hhelp ha hb]
          refine ⟨by simp, ?_⟩
          intro e he
          simp only [printed_append, printed_Debug, printed_setRegion,
            List.nil_append] at he
          exact absurd he (List.not_mem_nil e)
  · intro w c
    cases hacc : (c.args.length != 1 || c.isHelpRequested) with
    | true =>
      rw [s3rm.rm_main_usage w c hacc]
      refine ⟨by simp, ?_⟩
      intro e he
      simp only [printed_append, printed_Debug, List.nil_append] at he
      exact absurd he (List.not_mem_nil e)
    | false =>
      obtain ⟨path, hargs, hhelp⟩ := s3rm.rm_args_of_accepted c hacc
      cases hp : lib.IsS3Path path with
      | true =>
        obtain ⟨p, hpp⟩ := lib.parse_of_isS3Path path hp
        rw [s3rm.main_remote w c path hargs hhelp hp]
        simp only [printed_append, printed_Debug, printed_setRegion,
          lib.printed_removeS3Path, List.nil_append]
        refine finish_safe _ _ _ ?_
        rw [lib.removeS3Path_result w c.mode path p hpp]
        cases w.deleteObject p.Bucket p.Path with
        | ok r => exact Or.inl rfl
        | error err => exact Or.inr ⟨_, rfl, rfl⟩
      | false =>
        rw [s3rm.main_local w c path hargs hhelp hp]
        refine ⟨by simp, ?_⟩
        intro e he
        simp only [printed_append, printed_Debug, printed_setRegion,
          List.nil_append] at he
        exact absurd he (List.not_mem_nil e)
